import Mathlib

/-!
Shallow embedding of the granule-classification and spatial-filtering logic of
the `DataProducts.ipynb` notebook (ICESat-2 data-products tutorial), together
with theorems settling the specification's claims about it.

Coordinates and numeric field values are modelled over `ℚ`; a floating-point
array cell is modelled by `Val`, which is either a rational number or the
missing-value marker `Val.nan` (IEEE `NaN` compares unequal to everything,
which `vEq` reproduces).  Filename strings are modelled as `List Char`.
-/

namespace DataProducts

/-! ### Region-of-interest mask

The notebook computes, for parallel coordinate arrays `x` and `y` and a
rectangle `XR = (xmin, xmax)`, `YR = (ymin, ymax)`:

    ind  = x > XR[0]
    ind &= x < XR[1]
    ind &= y > YR[0]
    ind &= y < YR[1]

i.e. an elementwise strict comparison against each bound followed by three
elementwise logical ANDs. -/

/-- Elementwise `xs > c` (numpy broadcast comparison of an array against a scalar). -/
def gtMask (xs : List ℚ) (c : ℚ) : List Bool :=
  xs.map fun x => decide (c < x)

/-- Elementwise `xs < c`. -/
def ltMask (xs : List ℚ) (c : ℚ) : List Bool :=
  xs.map fun x => decide (x < c)

/-- Elementwise logical AND of two boolean arrays (numpy `&=`). -/
def andMask (a b : List Bool) : List Bool :=
  List.zipWith (· && ·) a b

/-- The selection mask of the notebook: `ind = x > XR[0]; ind &= x < XR[1];
ind &= y > YR[0]; ind &= y < YR[1]`. -/
def regionMask (xmin xmax ymin ymax : ℚ) (xs ys : List ℚ) : List Bool :=
  andMask (andMask (andMask (gtMask xs xmin) (ltMask xs xmax)) (gtMask ys ymin)) (ltMask ys ymax)

/-! ### Fill-value sanitization

The notebook reads a numeric array `temp` from a file and executes

    temp[temp == h5f[...].attrs[_FillValue]] = np.NaN

i.e. every cell comparing equal (IEEE `==`) to the dataset's fill-value
sentinel is overwritten with the missing-value marker `NaN`. -/

/-- A floating-point array cell: either a (rational) number or the
missing-value marker `NaN`. -/
inductive Val : Type where
  | nan : Val
  | num : ℚ → Val
deriving DecidableEq

/-- IEEE `==` on cells: `NaN` compares unequal to everything, itself included. -/
def vEq : Val → Val → Bool
  | Val.num a, Val.num b => decide (a = b)
  | _, _ => false

/-- The sanitization step `temp[temp == fill] = np.NaN` for a numeric
fill-value sentinel `fill`. -/
def sanitize (arr : List Val) (fill : ℚ) : List Val :=
  arr.map fun v => if vEq v (Val.num fill) then Val.nan else v

/-! ### Filename parsing

The notebook compiles the regular expression

    ATL11_re = re.compile(r"ATL11_(dddd)(dd)_")     -- d standing for a digit

(groups: reference ground track, subregion) and applies `ATL11_re.search`,
which tries the pattern at every start position and returns the groups of the
first match, or `None` when no position matches. -/

/-- Match the `ATL11_re` pattern at the head of the string; on success return
the two captured groups (track digits, subregion digits). -/
def matchATL11At : List Char → Option (List Char × List Char)
  | a1 :: a2 :: a3 :: a4 :: a5 :: a6 ::
      t1 :: t2 :: t3 :: t4 :: r1 :: r2 :: a7 :: _ =>
    if (a1 == 'A') && (a2 == 'T') && (a3 == 'L') && (a4 == '1') &&
        (a5 == '1') && (a6 == '_') &&
        t1.isDigit && t2.isDigit && t3.isDigit && t4.isDigit &&
        r1.isDigit && r2.isDigit && (a7 == '_') then
      some ([t1, t2, t3, t4], [r1, r2])
    else
      none
  | _ => none

/-- `ATL11_re.search`: scan start positions left to right, returning the groups
of the first match, or `none` on format mismatch. -/
def searchATL11 : List Char → Option (List Char × List Char)
  | [] => none
  | c :: rest =>
    match matchATL11At (c :: rest) with
    | some g => some g
    | none => searchATL11 rest

/-- A parsed granule identifier, with each field kept as the embedded digit
substring of the filename. -/
structure GranuleIdentifier where
  track : List Char
  subregion : List Char
  cycleStart : List Char
  cycleEnd : List Char
  release : List Char
  version : List Char
deriving DecidableEq

/-- Modelled from the spec: the notebook's code extracts only the track and
subregion groups by regular expression (`ATL11_re`, embedded above as
`searchATL11`); the cycle-range, release and version fields exist in the
source only as the documented fixed naming pattern
`ATL11_ttttrr_c0c1_RRR_VV.h5`.  This parser decomposes a filename following
that full documented pattern, failing on any deviation. -/
def parseATL11Filename : List Char → Option GranuleIdentifier
  | a1 :: a2 :: a3 :: a4 :: a5 :: a6 ::
      t1 :: t2 :: t3 :: t4 :: r1 :: r2 :: a7 ::
      c1 :: c2 :: c3 :: c4 :: a8 ::
      e1 :: e2 :: e3 :: a9 :: v1 :: v2 :: a10 :: a11 :: a12 :: [] =>
    if (a1 == 'A') && (a2 == 'T') && (a3 == 'L') && (a4 == '1') &&
        (a5 == '1') && (a6 == '_') && (a7 == '_') && (a8 == '_') &&
        (a9 == '_') && (a10 == '.') && (a11 == 'h') && (a12 == '5') &&
        t1.isDigit && t2.isDigit && t3.isDigit && t4.isDigit &&
        r1.isDigit && r2.isDigit && c1.isDigit && c2.isDigit &&
        c3.isDigit && c4.isDigit && e1.isDigit && e2.isDigit &&
        e3.isDigit && v1.isDigit && v2.isDigit then
      some ⟨[t1, t2, t3, t4], [r1, r2], [c1, c2], [c3, c4], [e1, e2, e3], [v1, v2]⟩
    else
      none
  | _ => none

/-! ### The ATL11 granule-download loop

For each available granule name the notebook runs:

    if os.path.isfile(tmp + this_name): continue          -- already local
    subregion = ATL11_re.search(this_name).group(2)       -- crashes on None
    if not subregion == "03": continue                    -- wrong subregion
    ...download this_name...

A `None` search result makes `.group(2)` raise an uncaught AttributeError,
aborting the whole batch; this is modelled by the `Option` result. -/

/-- The download loop: given the names already present locally and the ordered
available granule names, return the ordered list of names downloaded, or
`none` when the batch aborts on a filename that fails to parse. -/
def atl11DownloadLoop (localFiles : List (List Char)) :
    List (List Char) → Option (List (List Char))
  | [] => some []
  | n :: rest =>
    if n ∈ localFiles then
      atl11DownloadLoop localFiles rest
    else
      match searchATL11 n with
      | none => none
      | some (_, r) =>
        if r = ['0', '3'] then
          (atl11DownloadLoop localFiles rest).map (n :: ·)
        else
          atl11DownloadLoop localFiles rest

/-- The set of files the subsequent reading stage finds on disk
(`glob.glob` over the temporary directory): the pre-existing local files
together with the files the loop downloaded. -/
def localSetAfter (localFiles granules : List (List Char)) :
    Option (List (List Char)) :=
  (atl11DownloadLoop localFiles granules).map (localFiles ++ ·)

/-- The subregion filter of the loop in isolation (no pre-existing local
files), generalized to an arbitrary target subregion code: keep exactly the
names whose parsed subregion equals the target, aborting on a name that fails
to parse. -/
def filterSubregion (target : List Char) :
    List (List Char) → Option (List (List Char))
  | [] => some []
  | n :: rest =>
    match searchATL11 n with
    | none => none
    | some (_, r) =>
      if r = target then
        (filterSubregion target rest).map (n :: ·)
      else
        filterSubregion target rest

/-! ### The ATL06 field-loading loop

For every field name in a fixed list the notebook runs:

    temp = np.array(h5f[group][field])
    try:
        temp[temp == h5f[group][field].attrs[_FillValue]] = np.NaN
    except KeyError:
        pass
    if "/" in field: field = field.split("/")[1]
    this_D[field] = temp

so a field whose fill-value attribute is absent is stored raw, and every
field is stored under its name (or, for a nested name, the part after the
slash). -/

/-- A dataset as read from a file: its raw values and its fill-value
attribute, `none` when the attribute is absent (the `KeyError` case). -/
structure FieldData where
  values : List Val
  fillValue : Option ℚ
deriving DecidableEq

/-- The key a field is stored under: `field.split("/")[1]` when the name
contains a slash, the name itself otherwise. -/
def fieldKey (name : List Char) : List Char :=
  if '/' ∈ name then ((name.splitOn '/').get? 1).getD name else name

/-- Loading one field: sanitize when the fill-value attribute is present,
store raw values when it is absent. -/
def loadField (fd : FieldData) : List Val :=
  match fd.fillValue with
  | some fv => sanitize fd.values fv
  | none => fd.values

/-- The field loop: store every listed field under its key. -/
def loadFields (fds : List (List Char × FieldData)) : List (List Char × List Val) :=
  fds.map fun nf => (fieldKey nf.1, loadField nf.2)

/-! ### The ATL11 reading loop

For each downloaded file the notebook runs:

    try:
        lat = np.array(h5f[pt2][latitude])
        lon = np.array(h5f[pt2][longitude])
    except Exception:
        pass
    x, y = to_xy_crs.transform(lat, lon)
    file_xyth[file] = dict of x, y, h, t
    ...h sanitized with the h_corr fill value...

`lat`/`lon` are plain loop-body variables: when the read fails, the caught
exception leaves them bound to the previous iteration's values (or unbound on
the first iteration, in which case the uncaught NameError at the transform
call aborts the loop, modelled by `none`). -/

/-- An ATL11 input file: its position fields when readable, plus the height
array with its fill value and the time array (fields the loop reads outside
the `try`). -/
structure ATL11File where
  pos : Option (List ℚ × List ℚ)
  h_corr : List Val
  hFill : ℚ
  delta_time : List ℚ

/-- The record built for one file: projected positions, sanitized heights,
times. -/
structure ATL11Record where
  x : List ℚ
  y : List ℚ
  h : List Val
  t : List ℚ
deriving DecidableEq

/-- The reading loop, threading the leftover `lat`/`lon` state; `T` is the
external geodetic-to-projected coordinate transform (a pure collaborator). -/
def readATL11 (T : List ℚ → List ℚ → List ℚ × List ℚ) :
    Option (List ℚ × List ℚ) → List ATL11File → Option (List ATL11Record)
  | _, [] => some []
  | prev, f :: rest =>
    match (match f.pos with | some p => some p | none => prev) with
    | none => none
    | some (lat, lon) =>
      (readATL11 T (some (lat, lon)) rest).map
        fun recs =>
          ⟨(T lat lon).1, (T lat lon).2, sanitize f.h_corr f.hFill, f.delta_time⟩ :: recs

/-- Pointwise characterization of `regionMask`: entry `i` exists exactly when
both coordinate arrays have an entry `i`, and it is the conjunction of the four
strict comparisons. -/
lemma regionMask_get? (xmin xmax ymin ymax : ℚ) :
    ∀ (xs ys : List ℚ) (i : ℕ),
      (regionMask xmin xmax ymin ymax xs ys).get? i =
        match xs.get? i, ys.get? i with
        | some x, some y =>
            some (decide (xmin < x) && decide (x < xmax) &&
                  decide (ymin < y) && decide (y < ymax))
        | _, _ => none
  | [], _, _ => by simp [regionMask, gtMask, ltMask, andMask]
  | _ :: _, [], _ => by simp [regionMask, gtMask, ltMask, andMask]
  | x :: xs, y :: ys, 0 => by simp [regionMask, gtMask, ltMask, andMask]
  | x :: xs, y :: ys, i + 1 => by
      have ih := regionMask_get? xmin xmax ymin ymax xs ys i
      simpa [regionMask, gtMask, ltMask, andMask] using ih

/-- The mask has the length of the coordinate arrays when those agree. -/
lemma regionMask_length (xmin xmax ymin ymax : ℚ) (xs ys : List ℚ)
    (hlen : xs.length = ys.length) :
    (regionMask xmin xmax ymin ymax xs ys).length = xs.length := by
  simp [regionMask, gtMask, ltMask, andMask, hlen]

/-- C1: for every rectangle and every pair of equal-length coordinate arrays,
the selection mask has the same length and is true at position `i` exactly when
the point is strictly inside the rectangle on both axes. -/
theorem C1_regionMask_strictly_inside (xmin xmax ymin ymax : ℚ) (xs ys : List ℚ)
    (hlen : xs.length = ys.length) :
    (regionMask xmin xmax ymin ymax xs ys).length = xs.length ∧
    ∀ (i : ℕ) (x y : ℚ), xs.get? i = some x → ys.get? i = some y →
      (((xmin < x ∧ x < xmax ∧ ymin < y ∧ y < ymax) →
          (regionMask xmin xmax ymin ymax xs ys).get? i = some true) ∧
       (¬(xmin < x ∧ x < xmax ∧ ymin < y ∧ y < ymax) →
          (regionMask xmin xmax ymin ymax xs ys).get? i = some false)) := by
  refine ⟨regionMask_length xmin xmax ymin ymax xs ys hlen, ?_⟩
  intro i x y hx hy
  have h := regionMask_get? xmin xmax ymin ymax xs ys i
  rw [hx, hy] at h
  constructor
  · intro hin
    rw [h]
    simp [hin.1, hin.2.1, hin.2.2.1, hin.2.2.2]
  · intro hout
    rw [h]
    simp only [Option.some.injEq]
    by_contra hb
    apply hout
    have : (decide (xmin < x) && decide (x < xmax) &&
        decide (ymin < y) && decide (y < ymax)) = true := by
      cases hval : (decide (xmin < x) && decide (x < xmax) &&
          decide (ymin < y) && decide (y < ymax)) with
      | true => rfl
      | false => exact absurd hval hb
    simp only [Bool.and_eq_true, decide_eq_true_eq] at this
    exact ⟨this.1.1.1, this.1.1.2, this.1.2, this.2⟩

/-- C1 witness: in the rectangle x ∈ (1.015e6, 1.060e6), y ∈ (-4.2e5, -3.85e5)
of the notebook, a point at exactly x = 1.015e6 is excluded and a point at
x = 1.02e6 with y in range is included. -/
theorem C1_regionMask_strictly_inside_witness :
    (regionMask 1015000 1060000 (-420000) (-385000)
        [1015000, 1020000] [-400000, -400000]).get? 0 = some false ∧
    (regionMask 1015000 1060000 (-420000) (-385000)
        [1015000, 1020000] [-400000, -400000]).get? 1 = some true := by
  have h := C1_regionMask_strictly_inside 1015000 1060000 (-420000) (-385000)
    [1015000, 1020000] [-400000, -400000] (by decide)
  exact ⟨(h.2 0 1015000 (-400000) rfl rfl).2 (by norm_num),
         (h.2 1 1020000 (-400000) rfl rfl).1 (by norm_num)⟩

/-- C7: a degenerate or inverted rectangle (xmin ≥ xmax or ymin ≥ ymax) yields
an all-false mask (selects nothing); the selector is a total function, so no
error is raised. -/
theorem C7_degenerate_rectangle_selects_nothing (xmin xmax ymin ymax : ℚ)
    (xs ys : List ℚ) (hdeg : xmax ≤ xmin ∨ ymax ≤ ymin) :
    (xs.length = ys.length →
      (regionMask xmin xmax ymin ymax xs ys).length = xs.length) ∧
    ∀ (i : ℕ) (b : Bool),
      (regionMask xmin xmax ymin ymax xs ys).get? i = some b → b = false := by
  refine ⟨fun hlen => regionMask_length xmin xmax ymin ymax xs ys hlen, ?_⟩
  intro i b hb
  have h := regionMask_get? xmin xmax ymin ymax xs ys i
  rw [hb] at h
  cases hx : xs.get? i with
  | none => rw [hx] at h; exact absurd h (by simp)
  | some x =>
    cases hy : ys.get? i with
    | none => rw [hx, hy] at h; exact absurd h (by simp)
    | some y =>
      rw [hx, hy] at h
      simp only [Option.some.injEq] at h
      rcases hdeg with hd | hd
      · have : ¬(xmin < x ∧ x < xmax) := by
          rintro ⟨h1, h2⟩; exact absurd (h1.trans h2) (not_lt.mpr hd)
        rw [h]
        by_contra hfalse
        simp only [Bool.not_eq_false, Bool.and_eq_true, decide_eq_true_eq] at hfalse
        exact this ⟨hfalse.1.1.1, hfalse.1.1.2⟩
      · have : ¬(ymin < y ∧ y < ymax) := by
          rintro ⟨h1, h2⟩; exact absurd (h1.trans h2) (not_lt.mpr hd)
        rw [h]
        by_contra hfalse
        simp only [Bool.not_eq_false, Bool.and_eq_true, decide_eq_true_eq] at hfalse
        exact this ⟨hfalse.1.2, hfalse.2⟩

/-- C7 witness: an inverted rectangle on concrete points selects nothing. -/
theorem C7_degenerate_rectangle_selects_nothing_witness :
    (regionMask 10 0 0 10 [5, 15] [5, 5]).get? 0 = some false := by
  have h := C7_degenerate_rectangle_selects_nothing 10 0 0 10 [5, 15] [5, 5]
    (Or.inl (by norm_num))
  cases hb : (regionMask 10 0 0 10 [5, 15] [5, 5]).get? 0 with
  | none => exact absurd hb (by decide)
  | some b =>
    have hbf := h.2 0 b hb
    subst hbf
    exact hb

/-- C4: sanitization produces an array of the same length in which exactly the
positions whose entries equal the sentinel are replaced by the missing-value
marker `NaN`, and every other entry is unchanged. -/
theorem C4_sanitize_replaces_exactly_sentinel (arr : List Val) (fill : ℚ) :
    (sanitize arr fill).length = arr.length ∧
    ∀ (i : ℕ) (v : Val), arr.get? i = some v →
      ((v = Val.num fill → (sanitize arr fill).get? i = some Val.nan) ∧
       (v ≠ Val.num fill → (sanitize arr fill).get? i = some v)) := by
  refine ⟨by simp [sanitize], ?_⟩
  intro i v hv
  have hmap : (sanitize arr fill).get? i =
      (arr.get? i).map fun w => if vEq w (Val.num fill) then Val.nan else w := by
    simp [sanitize, List.get?_map]
  rw [hv] at hmap
  constructor
  · rintro rfl
    simpa [vEq] using hmap
  · intro hne
    rw [hmap]
    cases v with
    | nan => simp [vEq]
    | num q =>
      have : q ≠ fill := fun h => hne (by rw [h])
      simp [vEq, this]

/-- C4 witness: for the array `[1, 5, NaN]` with sentinel `5`, exactly
position 1 becomes missing and position 0 is unchanged. -/
theorem C4_sanitize_replaces_exactly_sentinel_witness :
    (sanitize [Val.num 1, Val.num 5, Val.nan] 5).get? 1 = some Val.nan ∧
    (sanitize [Val.num 1, Val.num 5, Val.nan] 5).get? 0 = some (Val.num 1) := by
  have h := C4_sanitize_replaces_exactly_sentinel [Val.num 1, Val.num 5, Val.nan] 5
  exact ⟨(h.2 1 (Val.num 5) rfl).1 rfl,
         (h.2 0 (Val.num 1) rfl).2 (by simp)⟩

/-- C5: fill-value sanitization is idempotent — applying it twice with the same
sentinel yields the same array as applying it once. -/
theorem C5_sanitize_idempotent (arr : List Val) (fill : ℚ) :
    sanitize (sanitize arr fill) fill = sanitize arr fill := by
  induction arr with
  | nil => rfl
  | cons v rest ih =>
    simp only [sanitize, List.map_cons, List.map_map] at ih ⊢
    refine congrArg₂ List.cons ?_ ih
    cases v with
    | nan => simp [vEq]
    | num q =>
      by_cases hq : q = fill
      · simp [vEq, hq]
      · simp [vEq, hq]

/-- Every name the download loop downloads is not already local and parses
with subregion `03`. -/
lemma atl11DownloadLoop_downloads (localFiles : List (List Char)) :
    ∀ (gs out : List (List Char)), atl11DownloadLoop localFiles gs = some out →
      ∀ d ∈ out, d ∉ localFiles ∧ ∃ t, searchATL11 d = some (t, ['0', '3'])
  | [], out, h => by
      simp only [atl11DownloadLoop, Option.some.injEq] at h
      subst h
      intro d hd
      exact absurd hd (List.not_mem_nil d)
  | n :: rest, out, h => by
      by_cases hn : n ∈ localFiles
      · simp only [atl11DownloadLoop, if_pos hn] at h
        exact atl11DownloadLoop_downloads localFiles rest out h
      · simp only [atl11DownloadLoop, if_neg hn] at h
        cases hs : searchATL11 n with
        | none => rw [hs] at h; exact absurd h (by simp)
        | some g =>
          obtain ⟨t, r⟩ := g
          rw [hs] at h
          by_cases hr : r = ['0', '3']
          · simp only [if_pos hr] at h
            rw [Option.map_eq_some'] at h
            obtain ⟨out', hout', rfl⟩ := h
            intro d hd
            rcases List.mem_cons.mp hd with rfl | hd'
            · exact ⟨hn, t, by rw [hs, hr]⟩
            · exact atl11DownloadLoop_downloads localFiles rest out' hout' d hd'
          · simp only [if_neg hr] at h
            exact atl11DownloadLoop_downloads localFiles rest out h

/-- C2: a filename following the documented fixed naming pattern
`ATL11_ttttrr_c0c1_RRR_VV.h5` (all placeholder positions digits) parses to
exactly the embedded track, subregion, cycle-range, release and version
substrings; the notebook's regular expression recovers the same track and
subregion groups. -/
theorem C2_parse_recovers_embedded_fields
    (t1 t2 t3 t4 r1 r2 c1 c2 c3 c4 e1 e2 e3 v1 v2 : Char)
    (ht1 : t1.isDigit = true) (ht2 : t2.isDigit = true)
    (ht3 : t3.isDigit = true) (ht4 : t4.isDigit = true)
    (hr1 : r1.isDigit = true) (hr2 : r2.isDigit = true)
    (hc1 : c1.isDigit = true) (hc2 : c2.isDigit = true)
    (hc3 : c3.isDigit = true) (hc4 : c4.isDigit = true)
    (he1 : e1.isDigit = true) (he2 : e2.isDigit = true)
    (he3 : e3.isDigit = true) (hv1 : v1.isDigit = true)
    (hv2 : v2.isDigit = true) :
    parseATL11Filename
        ('A' :: 'T' :: 'L' :: '1' :: '1' :: '_' ::
          t1 :: t2 :: t3 :: t4 :: r1 :: r2 :: '_' ::
          c1 :: c2 :: c3 :: c4 :: '_' ::
          e1 :: e2 :: e3 :: '_' :: v1 :: v2 :: '.' :: 'h' :: '5' :: []) =
      some ⟨[t1, t2, t3, t4], [r1, r2], [c1, c2], [c3, c4], [e1, e2, e3], [v1, v2]⟩ ∧
    searchATL11
        ('A' :: 'T' :: 'L' :: '1' :: '1' :: '_' ::
          t1 :: t2 :: t3 :: t4 :: r1 :: r2 :: '_' ::
          c1 :: c2 :: c3 :: c4 :: '_' ::
          e1 :: e2 :: e3 :: '_' :: v1 :: v2 :: '.' :: 'h' :: '5' :: []) =
      some ([t1, t2, t3, t4], [r1, r2]) := by
  constructor
  · simp [parseATL11Filename, ht1, ht2, ht3, ht4, hr1, hr2,
      hc1, hc2, hc3, hc4, he1, he2, he3, hv1, hv2]
  · simp [searchATL11, matchATL11At, ht1, ht2, ht3, ht4, hr1, hr2]

/-- C2 witness: `ATL11_054803_0311_004_01.h5` parses to track 0548,
subregion 03, cycle range (03, 11), release 004, version 01. -/
theorem C2_parse_recovers_embedded_fields_witness :
    parseATL11Filename "ATL11_054803_0311_004_01.h5".toList =
      some ⟨"0548".toList, "03".toList, "03".toList, "11".toList,
            "004".toList, "01".toList⟩ ∧
    searchATL11 "ATL11_054803_0311_004_01.h5".toList =
      some ("0548".toList, "03".toList) := by
  exact C2_parse_recovers_embedded_fields
    '0' '5' '4' '8' '0' '3' '0' '3' '1' '1' '0' '0' '4' '0' '1'
    rfl rfl rfl rfl rfl rfl rfl rfl rfl rfl rfl rfl rfl rfl rfl

/-- C3 counterexample: for a filename that matches no recognized pattern,
parsing does fail with `none` (no partial identifier), but the filtering
caller does not skip the entry: the whole batch aborts (`none`), so a
well-formed granule listed after the bad one is not processed, whereas the
same batch without the bad name downloads it. -/
theorem C3_counterexample_batch_aborts :
    searchATL11 "granule.h5".toList = none ∧
    atl11DownloadLoop []
        ["granule.h5".toList, "ATL11_054803_0311_004_01.h5".toList] = none ∧
    atl11DownloadLoop [] ["ATL11_054803_0311_004_01.h5".toList] =
      some ["ATL11_054803_0311_004_01.h5".toList] ∧
    atl11DownloadLoop []
        ["granule.h5".toList, "ATL11_054803_0311_004_01.h5".toList] ≠
      atl11DownloadLoop [] ["ATL11_054803_0311_004_01.h5".toList] := by
  refine ⟨rfl, rfl, rfl, by decide⟩

/-- C3 (amended): for every filename not matching the recognized pattern,
parsing fails with a format-mismatch result (`none`, never a
partially-populated identifier); but the filtering caller does not skip such
an entry — when the file is not already local, the unhandled failure aborts
the whole batch, leaving all remaining entries unprocessed. -/
theorem C3_unparsed_name_aborts_batch (name : List Char)
    (localFiles rest : List (List Char))
    (hparse : searchATL11 name = none) (hnl : name ∉ localFiles) :
    atl11DownloadLoop localFiles (name :: rest) = none := by
  simp [atl11DownloadLoop, hnl, hparse]

/-- C3 witness: a concrete unparseable filename aborts a batch. -/
theorem C3_unparsed_name_aborts_batch_witness :
    atl11DownloadLoop [] ["height_data.h5".toList] = none := by
  exact C3_unparsed_name_aborts_batch "height_data.h5".toList [] [] rfl
    (List.not_mem_nil _)

/-- C6: subregion filtering is idempotent — refiltering a successfully
filtered sequence by the same target returns it unchanged — and the filter
output is an order-preserving subsequence of the input. -/
theorem C6_filter_idempotent_sublist (target : List Char) :
    ∀ (names out : List (List Char)),
      filterSubregion target names = some out →
      filterSubregion target out = some out ∧ out.Sublist names
  | [], out, h => by
      simp only [filterSubregion, Option.some.injEq] at h
      subst h
      exact ⟨rfl, List.Sublist.refl []⟩
  | n :: rest, out, h => by
      simp only [filterSubregion] at h
      cases hs : searchATL11 n with
      | none => rw [hs] at h; exact absurd h (by simp)
      | some g =>
        obtain ⟨t, r⟩ := g
        rw [hs] at h
        by_cases hr : r = target
        · simp only [if_pos hr] at h
          rw [Option.map_eq_some'] at h
          obtain ⟨out', hout', rfl⟩ := h
          obtain ⟨ih1, ih2⟩ := C6_filter_idempotent_sublist target rest out' hout'
          refine ⟨?_, ih2.cons₂ n⟩
          simp [filterSubregion, hs, hr, ih1]
        · simp only [if_neg hr] at h
          obtain ⟨ih1, ih2⟩ := C6_filter_idempotent_sublist target rest out h
          exact ⟨ih1, ih2.cons n⟩

/-- C6 witness: filtering a concrete two-granule listing to subregion 03
keeps exactly the subregion-03 granule; the result refilters to itself and is
a subsequence of the input. -/
theorem C6_filter_idempotent_sublist_witness :
    filterSubregion "03".toList ["ATL11_054803_0311_004_01.h5".toList] =
      some ["ATL11_054803_0311_004_01.h5".toList] ∧
    ["ATL11_054803_0311_004_01.h5".toList].Sublist
      ["ATL11_054803_0311_004_01.h5".toList, "ATL11_054804_0311_004_01.h5".toList] := by
  exact C6_filter_idempotent_sublist "03".toList
    ["ATL11_054803_0311_004_01.h5".toList, "ATL11_054804_0311_004_01.h5".toList]
    ["ATL11_054803_0311_004_01.h5".toList] rfl

/-- C10: the local-file-existence check precedes the subregion check, so an
already-local granule is skipped without its subregion ever being consulted
(the loop result is the same as if the granule were absent from the listing)
and it remains in the file set the reading stage loads; only downloaded
(previously absent) granules are subject to the subregion-03 restriction. -/
theorem C10_isfile_check_precedes_subregion (localFiles : List (List Char))
    (g : List Char) (rest gs : List (List Char)) (hg : g ∈ localFiles) :
    atl11DownloadLoop localFiles (g :: rest) = atl11DownloadLoop localFiles rest ∧
    (∀ out, atl11DownloadLoop localFiles gs = some out →
      ∀ d ∈ out, d ∉ localFiles ∧ ∃ t, searchATL11 d = some (t, ['0', '3'])) ∧
    (∀ out, localSetAfter localFiles gs = some out → g ∈ out) := by
  refine ⟨by simp [atl11DownloadLoop, hg], ?_, ?_⟩
  · intro out hout
    exact atl11DownloadLoop_downloads localFiles gs out hout
  · intro out hout
    simp only [localSetAfter, Option.map_eq_some'] at hout
    obtain ⟨dl, _, rfl⟩ := hout
    exact List.mem_append_left dl hg

/-- C10 witness: a pre-existing subregion-04 granule is skipped by the loop
(same result as without it), excluded from the downloads, and still present
in the file set the reading stage loads. -/
theorem C10_isfile_check_precedes_subregion_witness :
    atl11DownloadLoop ["ATL11_054804_0311_004_01.h5".toList]
        ["ATL11_054804_0311_004_01.h5".toList, "ATL11_054803_0311_004_01.h5".toList] =
      atl11DownloadLoop ["ATL11_054804_0311_004_01.h5".toList]
        ["ATL11_054803_0311_004_01.h5".toList] ∧
    "ATL11_054804_0311_004_01.h5".toList ∈
      ["ATL11_054804_0311_004_01.h5".toList, "ATL11_054803_0311_004_01.h5".toList] := by
  have h := C10_isfile_check_precedes_subregion
    ["ATL11_054804_0311_004_01.h5".toList]
    "ATL11_054804_0311_004_01.h5".toList
    ["ATL11_054803_0311_004_01.h5".toList]
    ["ATL11_054804_0311_004_01.h5".toList, "ATL11_054803_0311_004_01.h5".toList]
    (List.mem_singleton.mpr rfl)
  exact ⟨h.1, h.2.2
    ["ATL11_054804_0311_004_01.h5".toList, "ATL11_054803_0311_004_01.h5".toList] rfl⟩

/-- C8: when a field's fill-value attribute is absent, loading does not fail:
the field is stored with its raw values (no sanitization), and every other
listed field of the file is still processed normally (present in the output,
under its key, with sanitization exactly when its fill value is present). -/
theorem C8_missing_fill_value_recovered (fds : List (List Char × FieldData))
    (i : ℕ) (name : List Char) (fd : FieldData)
    (hget : fds.get? i = some (name, fd)) (habs : fd.fillValue = none) :
    (loadFields fds).length = fds.length ∧
    (loadFields fds).get? i = some (fieldKey name, fd.values) ∧
    ∀ (j : ℕ) (nf : List Char × FieldData), fds.get? j = some nf →
      (loadFields fds).get? j = some (fieldKey nf.1, loadField nf.2) := by
  have hmap : ∀ (j : ℕ), (loadFields fds).get? j =
      (fds.get? j).map fun nf => (fieldKey nf.1, loadField nf.2) := by
    intro j
    simp [loadFields, List.get?_map]
  refine ⟨by simp [loadFields], ?_, ?_⟩
  · rw [hmap i, hget]
    simp [loadField, habs]
  · intro j nf hj
    rw [hmap j, hj]
    rfl

/-- C8 witness: a two-field file whose first field lacks the fill-value
attribute loads that field raw while the second field is sanitized. -/
theorem C8_missing_fill_value_recovered_witness :
    (loadFields [("h_li".toList, ⟨[Val.num 7], none⟩),
                 ("latitude".toList, ⟨[Val.num 5], some 5⟩)]).length = 2 ∧
    (loadFields [("h_li".toList, ⟨[Val.num 7], none⟩),
                 ("latitude".toList, ⟨[Val.num 5], some 5⟩)]).get? 0 =
      some ("h_li".toList, [Val.num 7]) ∧
    (loadFields [("h_li".toList, ⟨[Val.num 7], none⟩),
                 ("latitude".toList, ⟨[Val.num 5], some 5⟩)]).get? 1 =
      some ("latitude".toList, [Val.nan]) := by
  have h := C8_missing_fill_value_recovered
    [("h_li".toList, ⟨[Val.num 7], none⟩),
     ("latitude".toList, ⟨[Val.num 5], some 5⟩)]
    0 "h_li".toList ⟨[Val.num 7], none⟩ rfl rfl
  refine ⟨h.1, ?_, ?_⟩
  · have := h.2.1
    simpa [fieldKey] using this
  · have := h.2.2 1 ("latitude".toList, ⟨[Val.num 5], some 5⟩) rfl
    simpa [fieldKey, loadField, sanitize, vEq] using this

/-- C9: when a file read by the ATL11 loop lacks its position fields, the
loop proceeds silently — the failure is caught and ignored — and the record
for that file is still created, with its projected position computed from the
latitude/longitude left over from the previously processed file, with no
flagged error (the overall result is `some`, not `none`). -/
theorem C9_stale_position_record (T : List ℚ → List ℚ → List ℚ × List ℚ)
    (f1 f2 : ATL11File) (lat lon : List ℚ)
    (h1 : f1.pos = some (lat, lon)) (h2 : f2.pos = none) :
    readATL11 T none [f1, f2] =
      some [⟨(T lat lon).1, (T lat lon).2, sanitize f1.h_corr f1.hFill, f1.delta_time⟩,
            ⟨(T lat lon).1, (T lat lon).2, sanitize f2.h_corr f2.hFill, f2.delta_time⟩] := by
  simp [readATL11, h1, h2]

/-- C9 witness: with the identity transform, a second file lacking position
fields yields a record carrying the first file's coordinates, and the loop
reports no error. -/
theorem C9_stale_position_record_witness :
    readATL11 (fun a b => (a, b)) none
        [⟨some ([1], [2]), [Val.num 3], 9, [0]⟩,
         ⟨none, [Val.num 9], 9, [4]⟩] =
      some [⟨[1], [2], [Val.num 3], [0]⟩, ⟨[1], [2], [Val.nan], [4]⟩] := by
  have h := C9_stale_position_record (fun a b => (a, b))
    ⟨some ([1], [2]), [Val.num 3], 9, [0]⟩
    ⟨none, [Val.num 9], 9, [4]⟩ [1] [2] rfl rfl
  rw [h]
  norm_num [sanitize, vEq]

end DataProducts
